import Mathlib

/-!
Shallow embedding of `commonse/environment.py`: wind profiles (PowerWind, LogWind),
wave kinematics (WaveBase null default, LinearWaves) and soil stiffness
(TowerSoil, TowerSoilK).  Python/numpy float arithmetic is embedded as exact
arithmetic over ℚ (soil components) and ℝ (wind/wave components, which use
transcendental functions).  `float('inf')` values are embedded by the type
`FVal`; Python exceptions raised mid-evaluation (ZeroDivisionError of float
division, ValueError of `math.log`) are embedded as `Option.none`.
-/

/-- A Python float value that is either an ordinary (finite) number, embedded as a
rational, or `float('inf')`. -/
inductive FVal where
  | finite (q : ℚ)
  | posInf
deriving DecidableEq, Repr

/-- Numpy masked assignment `a[rigid] = float('inf')` on an array of plain floats,
producing the array with `FVal.posInf` at the masked positions (mask and array
have equal length in every use in the source). -/
def maskedInf (a : List ℚ) (rigid : List Bool) : List FVal :=
  List.zipWith (fun x r => if r then FVal.posInf else FVal.finite x) a rigid

/-- Numpy masked assignment `a[rigid] = float('inf')` on an array that may already
hold infinities. -/
def maskedSetInf (a : List FVal) (rigid : List Bool) : List FVal :=
  List.zipWith (fun x r => if r then FVal.posInf else x) a rigid

/-- Numpy masked assignment `a[rigid] = 0.0`. -/
def maskedZero (a : List ℚ) (rigid : List Bool) : List ℚ :=
  List.zipWith (fun x r => if r then (0 : ℚ) else x) a rigid

/-- Inputs of the `TowerSoil` component (`G`, `nu`, `depth`, `r0`, `rigid`). -/
structure TowerSoilParams where
  G : ℚ
  nu : ℚ
  depth : ℚ
  r0 : ℚ
  rigid : List Bool

/-- `TowerSoil.execute` (environment.py lines 365-388).  Python float division by
zero raises ZeroDivisionError, embedded as `none`: this happens exactly when
`r0 = 0` (divisor `r0`), `nu = 1` (divisors `1-nu`, `3*(1-nu)`) or
`7 - 8*nu = 0` (divisor `7-8*nu`).  Otherwise the 6-vector
`[k_x, k_thetax, k_x, k_thetax, k_z, k_phi]` is assembled and the
rigid-flagged entries are overwritten with `float('inf')`. -/
def TowerSoil.execute (p : TowerSoilParams) : Option (List FVal) :=
  if p.r0 = 0 ∨ p.nu = 1 ∨ 7 - 8 * p.nu = 0 then none
  else
    let G := p.G
    let nu := p.nu
    let h := p.depth
    let r0 := p.r0
    -- vertical
    let eta_v := 1 + 0.6 * (1 - nu) * h / r0
    let k_z := 4 * G * r0 * eta_v / (1 - nu)
    -- horizontal
    let eta_h := 1 + 0.55 * (2 - nu) * h / r0
    let k_x := 32 * (1 - nu) * G * r0 * eta_h / (7 - 8 * nu)
    -- rocking
    let eta_r := 1 + 1.2 * (1 - nu) * h / r0 + 0.2 * (2 - nu) * (h / r0) ^ 3
    let k_thetax := 8 * G * r0 ^ 3 * eta_r / (3 * (1 - nu))
    -- torsional
    let k_phi := 16 * G * r0 ^ 3 / 3
    some (maskedInf [k_x, k_thetax, k_x, k_thetax, k_z, k_phi] p.rigid)

/-- `TowerSoil.provideJ` (environment.py lines 399-441): the analytic derivative
6-vectors `dk_dr0` and `dk_dh`, with the rigid-flagged entries zeroed.  The same
divisions occur as in `execute`, so the same ZeroDivisionError conditions are
embedded as `none`. -/
def TowerSoil.provideJ (p : TowerSoilParams) : Option (List ℚ × List ℚ) :=
  if p.r0 = 0 ∨ p.nu = 1 ∨ 7 - 8 * p.nu = 0 then none
  else
    let G := p.G
    let nu := p.nu
    let h := p.depth
    let r0 := p.r0
    -- vertical
    let eta_v := 1 + 0.6 * (1 - nu) * h / r0
    let deta_v_dr0 := -(0.6) * (1 - nu) * h / r0 ^ 2
    let dkz_dr0 := 4 * G / (1 - nu) * (eta_v + r0 * deta_v_dr0)
    let deta_v_dh := 0.6 * (1 - nu) / r0
    let dkz_dh := 4 * G * r0 / (1 - nu) * deta_v_dh
    -- horizontal
    let eta_h := 1 + 0.55 * (2 - nu) * h / r0
    let deta_h_dr0 := -(0.55) * (2 - nu) * h / r0 ^ 2
    let dkx_dr0 := 32 * (1 - nu) * G / (7 - 8 * nu) * (eta_h + r0 * deta_h_dr0)
    let deta_h_dh := 0.55 * (2 - nu) / r0
    let dkx_dh := 32 * (1 - nu) * G * r0 / (7 - 8 * nu) * deta_h_dh
    -- rocking
    let eta_r := 1 + 1.2 * (1 - nu) * h / r0 + 0.2 * (2 - nu) * (h / r0) ^ 3
    let deta_r_dr0 := -(1.2) * (1 - nu) * h / r0 ^ 2 - 3 * 0.2 * (2 - nu) * (h / r0) ^ 3 / r0
    let dkthetax_dr0 := 8 * G / (3 * (1 - nu)) * (3 * r0 ^ 2 * eta_r + r0 ^ 3 * deta_r_dr0)
    let deta_r_dh := 1.2 * (1 - nu) / r0 + 3 * 0.2 * (2 - nu) * (1 / r0) ^ 3 * h ^ 2
    let dkthetax_dh := 8 * G * r0 ^ 3 / (3 * (1 - nu)) * deta_r_dh
    -- torsional
    let dkphi_dr0 := 16 * G * 3 * r0 ^ 2 / 3
    let dkphi_dh := (0 : ℚ)
    some
      ( maskedZero [dkx_dr0, dkthetax_dr0, dkx_dr0, dkthetax_dr0, dkz_dr0, dkphi_dr0] p.rigid
      , maskedZero [dkx_dh, dkthetax_dh, dkx_dh, dkthetax_dh, dkz_dh, dkphi_dh] p.rigid )

/-- The attributes of a `TowerSoilK` object.  Numpy arrays are mutable heap
objects, so the array-valued attributes `kin` and `k` are embedded as references
(indices) into an explicit array store. -/
structure TowerSoilKObj where
  kin : ℕ
  k : ℕ
  rigid : List Bool

/-- `TowerSoilK.execute` (environment.py lines 345-347) over an explicit array
store.  `self.k = self.kin` rebinds the attribute `k` to the very array object
referenced by `kin` (no copy); `self.k[self.rigid] = float('inf')` then mutates
that shared array in place. -/
def TowerSoilK.execute (obj : TowerSoilKObj) (store : List (List FVal)) :
    TowerSoilKObj × List (List FVal) :=
  let obj2 := { obj with k := obj.kin }
  let a := store.getD obj2.k []
  (obj2, store.set obj2.k (maskedSetInf a obj.rigid))

/-- Inputs of the `PowerWind` component (`Uref`, `zref`, `z0`, `shearExp`,
`betaWind`). -/
structure PowerWindParams where
  Uref : ℝ
  zref : ℝ
  z0 : ℝ
  shearExp : ℝ
  betaWind : ℝ

/-- Outputs of a wind component: the speed vector `U` and the angle vector
`beta`, each aligned with the query-height vector `z`. -/
structure WindOut where
  U : List ℝ
  beta : List ℝ

/-- `PowerWind.solve_nonlinear` (environment.py lines 107-119):
`U` is zero-initialised and set to `Uref*((z-z0)/(zref-z0))**shearExp` at the
indices with `z > z0` (numpy masked assignment, embedded elementwise);
`beta = betaWind*ones_like(z)`.  The float power is embedded as `Real.rpow`. -/
noncomputable def PowerWind.solve_nonlinear (p : PowerWindParams) (z : List ℝ) : WindOut :=
  { U := z.map fun zi =>
      if zi > p.z0 then p.Uref * ((zi - p.z0) / (p.zref - p.z0)) ^ p.shearExp else 0
    beta := z.map fun _ => p.betaWind }

/-- `PowerWind.linearize` (environment.py lines 134-148), modelled from the
intent of the source: line 143 reads `idx = z > z0` with `z` and `z0` undefined
names (a NameError at run time); the fix indicated by the surrounding lines and
by the commented-out reference implementation (lines 166-169) is
`idx = params z > params z0`, which is what is embedded here.  `U` is the output
of the preceding `solve_nonlinear` on the same inputs.  Returns the arrays
`J[U,Uref]`, `J[U,z]` (the diagonal of the elementwise dependency) and
`J[U,zref]`, each zero-initialised and filled at the indices with `z > z0`. -/
noncomputable def PowerWind.linearize (p : PowerWindParams) (z : List ℝ) :
    List ℝ × List ℝ × List ℝ :=
  let U := (PowerWind.solve_nonlinear p z).U
  let pairs := z.zip U
  ( pairs.map fun zu => if zu.1 > p.z0 then zu.2 / p.Uref else 0
  , pairs.map fun zu => if zu.1 > p.z0 then zu.2 * p.shearExp / (zu.1 - p.z0) else 0
  , pairs.map fun zu => if zu.1 > p.z0 then -zu.2 * p.shearExp / (p.zref - p.z0) else 0 )

/-- `LogWind.solve_nonlinear` (environment.py lines 207-219).  `z_roughness` is
given in mm and converted to m by dividing by 1e3.  The denominator
`math.log((zref - z0)/z_roughness)` is evaluated on Python floats:
division by zero (`z_roughness = 0`) raises ZeroDivisionError and `math.log` of
a nonpositive argument raises ValueError, both embedded as `none`.  The
elementwise numerator `np.log` follows `Real.log`. -/
noncomputable def LogWind.solve_nonlinear (Uref zref z0 z_roughness betaWind : ℝ)
    (z : List ℝ) : Option WindOut :=
  let zr := z_roughness / 1000
  if zr = 0 then none
  else if (zref - z0) / zr ≤ 0 then none
  else some
    { U := z.map fun zi =>
        if zi - z0 > zr then Uref * Real.log ((zi - z0) / zr) / Real.log ((zref - z0) / zr)
        else 0
      beta := z.map fun _ => betaWind }

/-- Inputs of the `LinearWaves` component (with the `WaveBase` inputs
`z_surface`, `z_floor`). -/
structure LinearWavesParams where
  hmax : ℝ
  T : ℝ
  g : ℝ
  Uc : ℝ
  betaWave : ℝ
  z_surface : ℝ
  z_floor : ℝ

/-- Outputs of a wave component: vectors `U`, `A`, `beta` aligned with the
query heights and the surface scalars `U0`, `A0`, `beta0`. -/
structure WaveOut where
  U : List ℝ
  A : List ℝ
  beta : List ℝ
  U0 : ℝ
  A0 : ℝ
  beta0 : ℝ

/-- `WaveBase.solve_nonlinear` (environment.py lines 65-73): the null "no waves"
default, returning zero vectors of the length of `z` and zero scalars. -/
noncomputable def WaveBase.solve_nonlinear (z : List ℝ) : WaveOut :=
  { U := List.replicate z.length 0
    A := List.replicate z.length 0
    beta := List.replicate z.length 0
    U0 := 0
    A0 := 0
    beta0 := 0 }

/-- `LinearWaves.solve_nonlinear` output fields (environment.py lines 273-302),
modelled from the intent of the source: lines 292 and 295 misspell `params` as
`sparams` and `parmas` (NameErrors at run time); the obvious fix `params` is
embedded.  The wavenumber `k` found by the `brentq` root-search of the
dispersion relation is taken as a parameter.  `U` is computed for every height
and then zeroed at the heights with `z < z_floor` or `z > z_surface` (numpy
masked assignment, embedded elementwise); `A = U*omega` is formed after that
clamp; `U0` is the same formula at relative height 0. -/
noncomputable def LinearWaves.solve_nonlinear (p : LinearWavesParams) (k : ℝ)
    (z : List ℝ) : WaveOut :=
  let d := p.z_surface - p.z_floor
  let omega := 2 * Real.pi / p.T
  let U := z.map fun zi =>
    if zi < p.z_floor ∨ zi > p.z_surface then 0
    else p.hmax / 2 * omega * Real.cosh (k * ((zi - p.z_surface) + d)) / Real.sinh (k * d) + p.Uc
  let U0 := p.hmax / 2 * omega * Real.cosh (k * (0 + d)) / Real.sinh (k * d) + p.Uc
  { U := U
    A := U.map fun u => u * omega
    beta := z.map fun _ => p.betaWave
    U0 := U0
    A0 := U0 * omega
    beta0 := p.betaWave }

/-- A list of length 6 is a literal six-element list. -/
theorem exists_six_of_length_eq {α : Type} (l : List α) (h : l.length = 6) :
    ∃ a b c d e f, l = [a, b, c, d, e, f] := by
  obtain _ | ⟨a, l⟩ := l
  · simp at h
  obtain _ | ⟨b, l⟩ := l
  · simp at h
  obtain _ | ⟨c, l⟩ := l
  · simp at h
  obtain _ | ⟨d, l⟩ := l
  · simp at h
  obtain _ | ⟨e, l⟩ := l
  · simp at h
  obtain _ | ⟨f, l⟩ := l
  · simp at h
  obtain _ | ⟨g, l⟩ := l
  · exact ⟨a, b, c, d, e, f, rfl⟩
  · simp at h

/-- The claim C9: the null (no-wave) default returns U, A and beta vectors of the
same length as z with every entry exactly zero, and surface scalars U0, A0 and
beta0 all exactly zero. -/
theorem waveBase_solve_nonlinear_null (z : List ℝ) :
    (WaveBase.solve_nonlinear z).U = List.replicate z.length 0
    ∧ (WaveBase.solve_nonlinear z).A = List.replicate z.length 0
    ∧ (WaveBase.solve_nonlinear z).beta = List.replicate z.length 0
    ∧ (WaveBase.solve_nonlinear z).U.length = z.length
    ∧ (WaveBase.solve_nonlinear z).A.length = z.length
    ∧ (WaveBase.solve_nonlinear z).beta.length = z.length
    ∧ (WaveBase.solve_nonlinear z).U0 = 0
    ∧ (WaveBase.solve_nonlinear z).A0 = 0
    ∧ (WaveBase.solve_nonlinear z).beta0 = 0 := by
  refine ⟨rfl, rfl, rfl, ?_, ?_, ?_, rfl, rfl, rfl⟩ <;>
    simp [WaveBase.solve_nonlinear]

/-- The claim C3 is false on the code: at the violating input r0 = -1 (<= 0,
with G = 140e6, nu = 0.4, depth = 1, no rigid flags) TowerSoil.execute silently
returns a stiffness vector instead of failing with a DomainError. -/
theorem towerSoil_execute_silent_on_invalid_r0 :
    (-1 : ℚ) ≤ 0
    ∧ (TowerSoil.execute
        ⟨140000000, 0.4, 1, -1, [false, false, false, false, false, false]⟩).isSome = true := by
  constructor
  · norm_num
  · unfold TowerSoil.execute
    rw [if_neg (by norm_num)]
    rfl

/-- The claim C3 amended: no evaluate operation validates its inputs or raises a
DomainError; TowerSoil.execute returns a result for every input with r0 ≠ 0,
nu ≠ 1 and nu ≠ 7/8 (so in particular for every r0 < 0 and every nu outside
(-1, 0.5) other than 7/8), violating preconditions included. -/
theorem towerSoil_execute_total_no_domain_error (p : TowerSoilParams)
    (h0 : p.r0 ≠ 0) (h1 : p.nu ≠ 1) (h2 : p.nu ≠ 7 / 8) :
    ∃ ks, TowerSoil.execute p = some ks := by
  have hc : ¬(p.r0 = 0 ∨ p.nu = 1 ∨ 7 - 8 * p.nu = 0) := by
    push_neg
    refine ⟨h0, h1, fun hc => h2 ?_⟩
    linarith
  unfold TowerSoil.execute
  rw [if_neg hc]
  exact ⟨_, rfl⟩

/-- Witness for the amended C3, at a physically invalid input (r0 = -1 < 0 and
nu = 2 outside (-1, 0.5)): the evaluation still silently returns a result. -/
theorem towerSoil_execute_total_no_domain_error_witness :
    ∃ ks, TowerSoil.execute
      ⟨1, 2, 1, -1, [false, false, false, false, false, false]⟩ = some ks :=
  towerSoil_execute_total_no_domain_error _ (by norm_num) (by norm_num) (by norm_num)

/-- The claim C7: the torsional entry (index 5) of the executed stiffness vector
equals 16*G*r0^3/3 (when not rigid-flagged), does not change when depth changes,
and the analytic derivative of that entry with respect to depth returned by the
Jacobian is exactly 0. -/
theorem towerSoil_torsional_depth_independent (G nu r0 d1 d2 : ℚ) (rigid : List Bool)
    (hlen : rigid.length = 6) (hr : r0 ≠ 0) (hnu1 : nu ≠ 1) (hnu78 : nu ≠ 7 / 8) :
    ∃ ks1 ks2 jr jh,
      TowerSoil.execute ⟨G, nu, d1, r0, rigid⟩ = some ks1
      ∧ TowerSoil.execute ⟨G, nu, d2, r0, rigid⟩ = some ks2
      ∧ ks1.getD 5 (FVal.finite 0) = ks2.getD 5 (FVal.finite 0)
      ∧ (rigid.getD 5 false = false →
          ks1.getD 5 (FVal.finite 0) = FVal.finite (16 * G * r0 ^ 3 / 3))
      ∧ TowerSoil.provideJ ⟨G, nu, d1, r0, rigid⟩ = some (jr, jh)
      ∧ jh.getD 5 1 = 0 := by
  have hc : ¬(r0 = 0 ∨ nu = 1 ∨ 7 - 8 * nu = 0) := by
    push_neg
    refine ⟨hr, hnu1, fun hc => hnu78 ?_⟩
    linarith
  obtain ⟨a, b, c, d, e, f, rfl⟩ := exists_six_of_length_eq rigid hlen
  unfold TowerSoil.execute TowerSoil.provideJ
  rw [if_neg hc, if_neg hc, if_neg hc]
  refine ⟨_, _, _, _, rfl, rfl, ?_, ?_, rfl, ?_⟩
  · simp [maskedInf, List.getD]
  · intro hf
    simp only [List.getD_cons_zero, List.getD_cons_succ] at hf
    simp [maskedInf, List.getD_cons_zero, List.getD_cons_succ, hf]
  · cases f <;> simp [maskedZero, List.getD]

/-- Witness for C7 at G = 1, nu = 0, r0 = 1, depths 0 and 5, no rigid flags. -/
theorem towerSoil_torsional_depth_independent_witness :
    ∃ ks1 ks2 jr jh,
      TowerSoil.execute ⟨1, 0, 0, 1, [false, false, false, false, false, false]⟩ = some ks1
      ∧ TowerSoil.execute ⟨1, 0, 5, 1, [false, false, false, false, false, false]⟩ = some ks2
      ∧ ks1.getD 5 (FVal.finite 0) = ks2.getD 5 (FVal.finite 0)
      ∧ ([false, false, false, false, false, false].getD 5 false = false →
          ks1.getD 5 (FVal.finite 0) = FVal.finite (16 * 1 * 1 ^ 3 / 3))
      ∧ TowerSoil.provideJ ⟨1, 0, 0, 1, [false, false, false, false, false, false]⟩ = some (jr, jh)
      ∧ jh.getD 5 1 = 0 :=
  towerSoil_torsional_depth_independent 1 0 1 0 5 _ (by decide) (by norm_num) (by norm_num)
    (by norm_num)

/-- The claim C6: TowerSoil.execute returns the 6-vector
[k_x, k_thetax, k_x, k_thetax, k_z, k_phi] of the elastic half-space closed
forms (k_z = 4*G*r0*eta/(1-nu) with eta = 1 + 0.6*(1-nu)*h/r0, and the
analogous horizontal, rocking and torsional forms), except that every entry
whose rigid flag is true is forced to +infinity, and TowerSoil.provideJ forces
both derivative entries of every rigid-flagged index to exactly zero. -/
theorem towerSoil_execute_rigid_spec (p : TowerSoilParams) (hlen : p.rigid.length = 6)
    (hr : p.r0 ≠ 0) (hnu1 : p.nu ≠ 1) (hnu78 : p.nu ≠ 7 / 8) :
    ∃ ks jr jh,
      TowerSoil.execute p = some ks ∧ ks.length = 6
      ∧ (∀ i, i < 6 →
          ks.getD i (FVal.finite 0) =
            if p.rigid.getD i false = true then FVal.posInf
            else FVal.finite
              ([ 32 * (1 - p.nu) * p.G * p.r0 * (1 + 0.55 * (2 - p.nu) * p.depth / p.r0) /
                   (7 - 8 * p.nu)
               , 8 * p.G * p.r0 ^ 3 *
                   (1 + 1.2 * (1 - p.nu) * p.depth / p.r0 +
                     0.2 * (2 - p.nu) * (p.depth / p.r0) ^ 3) / (3 * (1 - p.nu))
               , 32 * (1 - p.nu) * p.G * p.r0 * (1 + 0.55 * (2 - p.nu) * p.depth / p.r0) /
                   (7 - 8 * p.nu)
               , 8 * p.G * p.r0 ^ 3 *
                   (1 + 1.2 * (1 - p.nu) * p.depth / p.r0 +
                     0.2 * (2 - p.nu) * (p.depth / p.r0) ^ 3) / (3 * (1 - p.nu))
               , 4 * p.G * p.r0 * (1 + 0.6 * (1 - p.nu) * p.depth / p.r0) / (1 - p.nu)
               , 16 * p.G * p.r0 ^ 3 / 3 ].getD i 0))
      ∧ TowerSoil.provideJ p = some (jr, jh)
      ∧ jr.length = 6 ∧ jh.length = 6
      ∧ (∀ i, i < 6 → p.rigid.getD i false = true →
          jr.getD i 1 = 0 ∧ jh.getD i 1 = 0) := by
  obtain ⟨G, nu, dep, r0, rigid⟩ := p
  simp only at hlen hr hnu1 hnu78
  have hc : ¬(r0 = 0 ∨ nu = 1 ∨ 7 - 8 * nu = 0) := by
    push_neg
    refine ⟨hr, hnu1, fun hc => hnu78 ?_⟩
    linarith
  obtain ⟨a, b, c, d, e, f, rfl⟩ := exists_six_of_length_eq rigid hlen
  unfold TowerSoil.execute TowerSoil.provideJ
  rw [if_neg hc, if_neg hc]
  refine ⟨_, _, _, rfl, ?_, ?_, rfl, ?_, ?_, ?_⟩
  · simp [maskedInf]
  · intro i hi
    interval_cases i <;> simp [maskedInf, List.getD]
  · simp [maskedZero]
  · simp [maskedZero]
  · intro i hi
    interval_cases i <;>
      · intro hrig
        simp only [List.getD_cons_zero, List.getD_cons_succ] at hrig
        simp [maskedZero, List.getD_cons_zero, List.getD_cons_succ, hrig]

/-- Witness for C6 at the spec sample G = 140e6, nu = 0.4, depth = 1, r0 = 1
with rigid = [true, false, true, false, false, false]. -/
theorem towerSoil_execute_rigid_spec_witness :
    ∃ ks jr jh,
      TowerSoil.execute
        (⟨140000000, 0.4, 1, 1, [true, false, true, false, false, false]⟩ : TowerSoilParams) =
          some ks
      ∧ ks.length = 6
      ∧ (∀ i, i < 6 →
          ks.getD i (FVal.finite 0) =
            if [true, false, true, false, false, false].getD i false = true then FVal.posInf
            else FVal.finite
              ([ 32 * (1 - (0.4 : ℚ)) * 140000000 * 1 * (1 + 0.55 * (2 - 0.4) * 1 / 1) /
                   (7 - 8 * 0.4)
               , 8 * 140000000 * 1 ^ 3 *
                   (1 + 1.2 * (1 - (0.4 : ℚ)) * 1 / 1 + 0.2 * (2 - 0.4) * (1 / 1) ^ 3) /
                   (3 * (1 - 0.4))
               , 32 * (1 - (0.4 : ℚ)) * 140000000 * 1 * (1 + 0.55 * (2 - 0.4) * 1 / 1) /
                   (7 - 8 * 0.4)
               , 8 * 140000000 * 1 ^ 3 *
                   (1 + 1.2 * (1 - (0.4 : ℚ)) * 1 / 1 + 0.2 * (2 - 0.4) * (1 / 1) ^ 3) /
                   (3 * (1 - 0.4))
               , 4 * 140000000 * 1 * (1 + 0.6 * (1 - (0.4 : ℚ)) * 1 / 1) / (1 - 0.4)
               , 16 * 140000000 * 1 ^ 3 / 3 ].getD i 0))
      ∧ TowerSoil.provideJ
          (⟨140000000, 0.4, 1, 1, [true, false, true, false, false, false]⟩ : TowerSoilParams) =
          some (jr, jh)
      ∧ jr.length = 6 ∧ jh.length = 6
      ∧ (∀ i, i < 6 → [true, false, true, false, false, false].getD i false = true →
          jr.getD i 1 = 0 ∧ jh.getD i 1 = 0) :=
  towerSoil_execute_rigid_spec _ (by decide) (by norm_num) (by norm_num) (by norm_num)

/-- The claim C10: TowerSoilK.execute aliases its output attribute k to the
caller-supplied kin array (self.k = self.kin copies the reference, not the
array) and then writes +infinity into the rigid-flagged positions of that
shared array; consequently the array referenced by kin itself has its
rigid-flagged entries changed to +infinity after execute. -/
theorem towerSoilK_execute_mutates_kin (obj : TowerSoilKObj) (store : List (List FVal))
    (hk : obj.kin < store.length) :
    (TowerSoilK.execute obj store).1.k = obj.kin
    ∧ (TowerSoilK.execute obj store).2.getD obj.kin [] =
        maskedSetInf (store.getD obj.kin []) obj.rigid
    ∧ (∀ i, i < obj.rigid.length → i < (store.getD obj.kin []).length →
        obj.rigid.getD i false = true →
        ((TowerSoilK.execute obj store).2.getD obj.kin []).getD i (FVal.finite 0) =
          FVal.posInf) := by
  have hset : (TowerSoilK.execute obj store).2.getD obj.kin [] =
      maskedSetInf (store.getD obj.kin []) obj.rigid := by
    unfold TowerSoilK.execute
    rw [List.getD_eq_getElem _ _ (by simpa using hk), List.getElem_set]
    simp
  refine ⟨rfl, hset, ?_⟩
  intro i h1 h2 h3
  rw [hset]
  have hi : i < (maskedSetInf (store.getD obj.kin []) obj.rigid).length := by
    simp only [maskedSetInf, List.length_zipWith]
    omega
  rw [List.getD_eq_getElem _ _ hi]
  have h3e : obj.rigid[i] = true := by
    rw [← List.getD_eq_getElem obj.rigid false h1]
    exact h3
  simp [maskedSetInf, List.getElem_zipWith, h3e]

/-- Witness for C10: a store with one two-element array, rigid = [true, false];
after execute the array referenced by kin has entry 0 overwritten to +infinity,
so the caller-visible kin array is mutated (it differs from its pre-call
value). -/
theorem towerSoilK_execute_mutates_kin_witness :
    ((TowerSoilK.execute ⟨0, 1, [true, false]⟩ [[FVal.finite 3, FVal.finite 4]]).1.k = 0
      ∧ (TowerSoilK.execute ⟨0, 1, [true, false]⟩ [[FVal.finite 3, FVal.finite 4]]).2.getD 0 [] =
          maskedSetInf ([[FVal.finite 3, FVal.finite 4]].getD 0 []) [true, false]
      ∧ (∀ i, i < ([true, false] : List Bool).length →
          i < ([[FVal.finite 3, FVal.finite 4]].getD 0 ([] : List FVal)).length →
          ([true, false] : List Bool).getD i false = true →
          ((TowerSoilK.execute ⟨0, 1, [true, false]⟩
              [[FVal.finite 3, FVal.finite 4]]).2.getD 0 []).getD i (FVal.finite 0) =
            FVal.posInf))
    ∧ (TowerSoilK.execute ⟨0, 1, [true, false]⟩ [[FVal.finite 3, FVal.finite 4]]).2.getD 0 [] ≠
        [[FVal.finite 3, FVal.finite 4]].getD 0 [] :=
  ⟨towerSoilK_execute_mutates_kin ⟨0, 1, [true, false]⟩ [[FVal.finite 3, FVal.finite 4]]
      (by decide),
    by decide⟩

/-- The claim C1: for the power-law wind variant, each speed entry U_i equals
Uref*((z_i - z0)/(zref - z0))^shearExp when z_i > z0 and 0 when z_i <= z0, and
every entry of the direction output beta equals betaWind. -/
theorem powerWind_solve_nonlinear_spec (p : PowerWindParams) (z : List ℝ) (i : ℕ)
    (hi : i < z.length) :
    ((PowerWind.solve_nonlinear p z).U.getD i 0 =
        if z.getD i 0 > p.z0 then
          p.Uref * ((z.getD i 0 - p.z0) / (p.zref - p.z0)) ^ p.shearExp
        else 0)
    ∧ (PowerWind.solve_nonlinear p z).beta.getD i 0 = p.betaWind := by
  unfold PowerWind.solve_nonlinear
  constructor <;>
    simp [List.getD_eq_getElem?_getD, List.getElem?_map, List.getElem?_eq_getElem hi,
      List.getElem?_replicate, hi]

/-- Witness for C1 at Uref = 6, zref = 4, z0 = 0, shearExp = 1, betaWind = 9,
z = [2]: the speed entry is 6*((2-0)/(4-0))^1 = 3, the direction entry is 9. -/
theorem powerWind_solve_nonlinear_spec_witness :
    (PowerWind.solve_nonlinear ⟨6, 4, 0, 1, 9⟩ [2]).U.getD 0 0 = 3
    ∧ (PowerWind.solve_nonlinear ⟨6, 4, 0, 1, 9⟩ [2]).beta.getD 0 0 = 9 := by
  obtain ⟨h1, h2⟩ := powerWind_solve_nonlinear_spec ⟨6, 4, 0, 1, 9⟩ [2] 0 (by norm_num)
  refine ⟨?_, h2⟩
  rw [h1]
  norm_num [List.getD_cons_zero, Real.rpow_one]

/-- The claim C2, proved of the intent-modelled linearize (the source's line 143
raises NameError, see PowerWind.linearize): for every index with z_i > z0 the
returned derivative entries are dU_i/dUref = U_i/Uref, dU_i/dz_i =
U_i*shearExp/(z_i - z0) (the diagonal of the elementwise block, depending on no
other height) and dU_i/dzref = -U_i*shearExp/(zref - z0); for every index with
z_i <= z0 all three derivatives are zero. -/
theorem powerWind_linearize_spec (p : PowerWindParams) (z : List ℝ) (i : ℕ)
    (hi : i < z.length) :
    ((PowerWind.linearize p z).1.getD i 0,
      (PowerWind.linearize p z).2.1.getD i 0,
      (PowerWind.linearize p z).2.2.getD i 0) =
      if z.getD i 0 > p.z0 then
        ((PowerWind.solve_nonlinear p z).U.getD i 0 / p.Uref,
          (PowerWind.solve_nonlinear p z).U.getD i 0 * p.shearExp / (z.getD i 0 - p.z0),
          -((PowerWind.solve_nonlinear p z).U.getD i 0) * p.shearExp / (p.zref - p.z0))
      else (0, 0, 0) := by
  have hU : i < (PowerWind.solve_nonlinear p z).U.length := by
    simpa [PowerWind.solve_nonlinear] using hi
  have key : ∀ g : ℝ × ℝ → ℝ,
      ((z.zip (PowerWind.solve_nonlinear p z).U).map g).getD i 0 =
        g (z.getD i 0, (PowerWind.solve_nonlinear p z).U.getD i 0) := by
    intro g
    rw [List.getD_eq_getElem _ _ (by simp [List.length_zip]; omega),
      List.getElem_map, List.getElem_zip, List.getD_eq_getElem z 0 hi,
      List.getD_eq_getElem _ _ hU]
  simp only [PowerWind.linearize]
  rw [key, key, key]
  simp only [gt_iff_lt]
  split_ifs <;> rfl

/-- Witness for C2 at Uref = 2, zref = 3, z0 = 1, shearExp = 1, z = [2]: the
speed at height 2 is 1, and the derivative entries are (1/2, 1, -(1/2)). -/
theorem powerWind_linearize_spec_witness :
    ((PowerWind.linearize ⟨2, 3, 1, 1, 0⟩ [2]).1.getD 0 0,
      (PowerWind.linearize ⟨2, 3, 1, 1, 0⟩ [2]).2.1.getD 0 0,
      (PowerWind.linearize ⟨2, 3, 1, 1, 0⟩ [2]).2.2.getD 0 0) = (1 / 2, 1, -(1 / 2)) := by
  rw [powerWind_linearize_spec ⟨2, 3, 1, 1, 0⟩ [2] 0 (by norm_num)]
  norm_num [PowerWind.solve_nonlinear, List.getD_cons_zero, Real.rpow_one]

/-- The claim C4, proved of the intent-modelled solve (the source's lines 292
and 295 raise NameError, see LinearWaves.solve_nonlinear): every query height
strictly outside [z_floor, z_surface] yields U_i = 0 and A_i = 0, whatever the
orbital-speed formula would give there, for every wavenumber k. -/
theorem linearWaves_clamp_spec (p : LinearWavesParams) (k : ℝ) (z : List ℝ) (i : ℕ)
    (hi : i < z.length)
    (hout : z.getD i 0 < p.z_floor ∨ z.getD i 0 > p.z_surface) :
    (LinearWaves.solve_nonlinear p k z).U.getD i 0 = 0
    ∧ (LinearWaves.solve_nonlinear p k z).A.getD i 0 = 0 := by
  rw [List.getD_eq_getElem z 0 hi] at hout
  constructor
  · simp only [LinearWaves.solve_nonlinear]
    rw [List.getD_eq_getElem _ _ (by simpa using hi), List.getElem_map, if_pos hout]
  · simp only [LinearWaves.solve_nonlinear]
    rw [List.getD_eq_getElem _ _ (by simpa using hi), List.getElem_map, List.getElem_map,
      if_pos hout, zero_mul]

/-- Witness for C4 with z_surface = 0, z_floor = -50 and the query height 5
above the surface: both the speed and the acceleration entries are 0. -/
theorem linearWaves_clamp_spec_witness :
    (LinearWaves.solve_nonlinear ⟨2, 10, 9.81, 0, 0, 0, -50⟩ 1 [5]).U.getD 0 0 = 0
    ∧ (LinearWaves.solve_nonlinear ⟨2, 10, 9.81, 0, 0, 0, -50⟩ 1 [5]).A.getD 0 0 = 0 :=
  linearWaves_clamp_spec ⟨2, 10, 9.81, 0, 0, 0, -50⟩ 1 [5] 0 (by norm_num)
    (Or.inr (by simp only [List.getD_cons_zero]; norm_num))

/-- The claim C5, proved of the intent-modelled solve (the source's lines 292
and 295 raise NameError, see LinearWaves.solve_nonlinear): the surface output
U0 equals the in-range orbital-speed formula hmax/2*omega*cosh(k*(z_rel + d))/
sinh(k*d) + Uc at z_rel = 0, is independent of the query-height vector (it is
produced on every evaluation), and equals the U entry of any query height
exactly at z_surface (when z_floor <= z_surface). -/
theorem linearWaves_surface_spec (p : LinearWavesParams) (k : ℝ) (z zother : List ℝ)
    (i : ℕ) (hi : i < z.length) (hz : z.getD i 0 = p.z_surface)
    (hfs : p.z_floor ≤ p.z_surface) :
    (LinearWaves.solve_nonlinear p k z).U0 =
      p.hmax / 2 * (2 * Real.pi / p.T) *
        Real.cosh (k * (0 + (p.z_surface - p.z_floor))) /
        Real.sinh (k * (p.z_surface - p.z_floor)) + p.Uc
    ∧ (LinearWaves.solve_nonlinear p k z).U0 = (LinearWaves.solve_nonlinear p k zother).U0
    ∧ (LinearWaves.solve_nonlinear p k z).U.getD i 0 =
        (LinearWaves.solve_nonlinear p k z).U0 := by
  refine ⟨rfl, rfl, ?_⟩
  rw [List.getD_eq_getElem z 0 hi] at hz
  simp only [LinearWaves.solve_nonlinear]
  rw [List.getD_eq_getElem _ _ (by simpa using hi), List.getElem_map, hz]
  rw [if_neg (by simp [not_or, not_lt, hfs])]
  simp [sub_self]

/-- Witness for C5 with hmax = 2, T = 10, g = 9.81, z_surface = 0,
z_floor = -50 and a query height exactly at the surface. -/
theorem linearWaves_surface_spec_witness :
    (LinearWaves.solve_nonlinear ⟨2, 10, 9.81, 0, 0, 0, -50⟩ 1 [0]).U0 =
      2 / 2 * (2 * Real.pi / 10) * Real.cosh (1 * (0 + ((0 : ℝ) - -50))) /
        Real.sinh (1 * ((0 : ℝ) - -50)) + 0
    ∧ (LinearWaves.solve_nonlinear ⟨2, 10, 9.81, 0, 0, 0, -50⟩ 1 [0]).U0 =
        (LinearWaves.solve_nonlinear ⟨2, 10, 9.81, 0, 0, 0, -50⟩ 1 []).U0
    ∧ (LinearWaves.solve_nonlinear ⟨2, 10, 9.81, 0, 0, 0, -50⟩ 1 [0]).U.getD 0 0 =
        (LinearWaves.solve_nonlinear ⟨2, 10, 9.81, 0, 0, 0, -50⟩ 1 [0]).U0 :=
  linearWaves_surface_spec ⟨2, 10, 9.81, 0, 0, 0, -50⟩ 1 [0] [] 0 (by norm_num)
    (by simp only [List.getD_cons_zero]) (by norm_num)

/-- The claim C8 is false on the code as stated: with z_roughness = -1000 mm
(that is, -1 m after conversion) the input satisfies zref - z0 > z_roughness
(1 > -1), yet evaluating at z = zref does not return Uref: the denominator
math.log((zref - z0)/z_roughness) receives the nonpositive argument -1, so the
evaluation fails with ValueError instead of returning anything (embedded as
none). -/
theorem logWind_at_zref_counterexample :
    ((1 : ℝ) - 0 > -1000 / 1000)
    ∧ LogWind.solve_nonlinear 10 1 0 (-1000) 0 [1] = none := by
  constructor
  · norm_num
  · unfold LogWind.solve_nonlinear
    rw [if_neg (by norm_num), if_pos (by norm_num)]

/-- The claim C8 amended: additionally require the converted roughness length
to be positive.  Then for every input with 0 < z_roughness and
zref - z0 > z_roughness (in meters), evaluating at a query height z_i = zref
returns exactly Uref. -/
theorem logWind_at_zref_amended (Uref zref z0 zrmm betaWind : ℝ) (z : List ℝ) (i : ℕ)
    (hi : i < z.length) (hpos : 0 < zrmm / 1000) (href : zref - z0 > zrmm / 1000)
    (hz : z.getD i 0 = zref) :
    ∃ out, LogWind.solve_nonlinear Uref zref z0 zrmm betaWind z = some out
      ∧ out.U.getD i 0 = Uref := by
  have hzr0 : zrmm / 1000 ≠ 0 := ne_of_gt hpos
  have hratio : 1 < (zref - z0) / (zrmm / 1000) := (one_lt_div hpos).mpr href
  have hlog : Real.log ((zref - z0) / (zrmm / 1000)) ≠ 0 := ne_of_gt (Real.log_pos hratio)
  unfold LogWind.solve_nonlinear
  rw [if_neg hzr0, if_neg (by linarith)]
  refine ⟨_, rfl, ?_⟩
  rw [List.getD_eq_getElem z 0 hi] at hz
  rw [List.getD_eq_getElem _ _ (by simpa using hi), List.getElem_map, hz, if_pos href,
    mul_div_assoc, div_self hlog, mul_one]

/-- Witness for the amended C8 at Uref = 5, zref = 3, z0 = 0,
z_roughness = 1000 mm (1 m), z = [3]: evaluating at the reference height
returns exactly 5. -/
theorem logWind_at_zref_amended_witness :
    ∃ out, LogWind.solve_nonlinear 5 3 0 1000 0 [3] = some out
      ∧ out.U.getD 0 0 = 5 :=
  logWind_at_zref_amended 5 3 0 1000 0 [3] 0 (by norm_num) (by norm_num) (by norm_num)
    (by simp only [List.getD_cons_zero])
